import Mathlib

/-!
Shallow embedding of the warehouse inventory/capacity engine:
the product/unit data model (`app/model/product.py`, `app/model/unit.py`),
the Mongo-backed repositories (`app/repositories/product_repository.py`,
`app/repositories/unit_repository.py`) and the service layer
(`app/services/product_service.py`).

The Mongo collection is modelled as a list of documents in natural
(insertion) order; `find_one` returns the first match and
`find_one_and_update` updates the first match in place.  Python ints are
`Int`, Python floats are `ℚ`, and the exception classes of
`app/exceptions/exceptions.py` (plus the generic `ValueError` used by the
service layer) are the constructors of `Err`.
-/

namespace Warehouse

/-- A stock record: one product scoped to one unit (`Product` in
`app/model/product.py`).  `Product.__init__` always stores a string id
(a fresh UUID when the caller passes `None`), so `id` is a plain `String`. -/
structure Product where
  id : String
  name : String
  quantity : Int
  sold_quantity : Int
  weight : ℚ
  volume : ℚ
  category : String
  purchase_price : ℚ
  selling_price : ℚ
  manufacturer : String
  unit_gain : ℚ
  unit_id : String
deriving Repr, DecidableEq

/-- A storage unit (`Unit` in `app/model/unit.py`). -/
structure Unit where
  id : String
  name : String
  volume : ℚ
deriving Repr, DecidableEq

/-- Embeds `Unit.__init__`: `id if id is not None else str(uuid.uuid4())`; the fresh
UUID string is passed in explicitly. -/
def Unit.init (id : Option String) (name : String) (volume : ℚ) (fresh : String) : Unit :=
  { id := id.getD fresh, name := name, volume := volume }

/-- The exception classes of `app/exceptions/exceptions.py` that the engine
raises, plus the generic Python `ValueError` (used by the service layer for
validation failures such as "Invalid product format" and "does not fit"). -/
inductive Err where
  | unitNotFound
  | productNotFound
  | insufficientQuantity
  | doesNotFit
  | validationError
deriving Repr, DecidableEq

/-- The dictionary handed to `Product.from_dict`: every field may be absent
or `None`. -/
structure ProductDict where
  id : Option String
  name : Option String
  quantity : Option Int
  sold_quantity : Option Int
  weight : Option ℚ
  volume : Option ℚ
  category : Option String
  purchase_price : Option ℚ
  selling_price : Option ℚ
  manufacturer : Option String
  unit_gain : Option ℚ
  unit_id : Option String
deriving Repr, DecidableEq

/-- Embeds `Product.from_dict`: every required attribute (all except `id`) must be
present and non-`None`, otherwise `ValueError` is raised; `id` may be `None`,
in which case `Product.__init__` stores the fresh UUID `freshId`. -/
def Product.from_dict (freshId : String) (d : ProductDict) : Except Err Product :=
  match d.name, d.quantity, d.sold_quantity, d.weight, d.volume, d.category,
      d.purchase_price, d.selling_price, d.manufacturer, d.unit_gain, d.unit_id with
  | some name, some quantity, some sold_quantity, some weight, some volume, some category,
      some purchase_price, some selling_price, some manufacturer, some unit_gain, some unit_id =>
    .ok { id := d.id.getD freshId, name := name, quantity := quantity,
          sold_quantity := sold_quantity, weight := weight, volume := volume,
          category := category, purchase_price := purchase_price,
          selling_price := selling_price, manufacturer := manufacturer,
          unit_gain := unit_gain, unit_id := unit_id }
  | _, _, _, _, _, _, _, _, _, _, _ => .error .validationError

/-- Embeds `Product.calculate_loss`: `- self.purchase_price * quantity`. -/
def Product.calculate_loss (p : Product) (quantity : Int) : ℚ :=
  - p.purchase_price * quantity

/-- Embeds `Product.calculate_profit`: `(self.selling_price - self.purchase_price) * quantity`. -/
def Product.calculate_profit (p : Product) (quantity : Int) : ℚ :=
  (p.selling_price - p.purchase_price) * quantity

/-- The database: the product collection and the unit collection, each in
natural (insertion) order. -/
structure DB where
  products : List Product
  units : List Unit
deriving Repr, DecidableEq

/-- Embeds `collection.find_one_and_update(filter, {"$inc": ...}, return_document=True)`:
update the first document matching the filter, returning the post-update
document together with the new collection contents; `(none, l)` when no
document matches (the collection is then unchanged). -/
def findOneAndUpdate (l : List Product) (flt : Product → Bool) (upd : Product → Product) :
    Option Product × List Product :=
  match l with
  | [] => (none, [])
  | x :: xs =>
    if flt x then (some (upd x), upd x :: xs)
    else
      let r := findOneAndUpdate xs flt upd
      (r.1, x :: r.2)

/-- The `$inc` document of the repository `buy_product` update: increment
`quantity` and `unit_gain`; no other field is touched. -/
def buyUpdate (quantity : Int) (unit_gain : ℚ) (p : Product) : Product :=
  { p with quantity := p.quantity + quantity, unit_gain := p.unit_gain + unit_gain }

/-- The `$inc` document of `_sell_product`: decrement `quantity` by the sold
amount and increment `unit_gain` by the profit; no other field (in particular
not `sold_quantity`) is touched. -/
def sellUpdate (sell_quantity : Int) (profit : ℚ) (p : Product) : Product :=
  { p with quantity := p.quantity - sell_quantity, unit_gain := p.unit_gain + profit }

namespace UnitRepository

/-- Embeds `UnitRepository.get_unit_by_id`: `find_one({"id": id})`. -/
def get_unit_by_id (us : List Unit) (id : String) : Option Unit :=
  us.find? (fun u => u.id == id)

/-- Embeds `UnitRepository.get_all_units_ids`. -/
def get_all_units_ids (us : List Unit) : List String :=
  us.map (fun u => u.id)

end UnitRepository

namespace ProductRepository

/-- The Mongo query `{"id": id}` plus `{"unit_id": unit_id}` when a unit is given
(`ProductRepository.get_product_by_id`). -/
def productFilter (id : String) (unit_id : Option String) (p : Product) : Bool :=
  p.id == id &&
    (match unit_id with
     | none => true
     | some u => p.unit_id == u)

/-- Embeds `ProductRepository.get_product_by_id`: first document matching the query. -/
def get_product_by_id (ps : List Product) (id : String) (unit_id : Option String) :
    Option Product :=
  ps.find? (productFilter id unit_id)

/-- Embeds `ProductRepository.get_quantity_and_volume_by_unit`: all documents of the
unit, projected to `quantity` and `volume`. -/
def get_quantity_and_volume_by_unit (ps : List Product) (unit_id : String) :
    List (Int × ℚ) :=
  (ps.filter (fun p => p.unit_id == unit_id)).map (fun p => (p.quantity, p.volume))

/-- Embeds `ProductRepository.buy_product`: `find_one_and_update({"id": product_id},
{"$inc": {"quantity": quantity, "unit_gain": unit_gain}}, return_document=True)`. -/
def buy_product (ps : List Product) (product_id : String) (quantity : Int)
    (unit_gain : ℚ) : Option Product × List Product :=
  findOneAndUpdate ps (fun p => p.id == product_id) (buyUpdate quantity unit_gain)

/-- The filter of `ProductRepository._sell_product`:
`{"id": product_id, "quantity": {"$gte": sell_quantity}}` plus
`{"unit_id": unit_id}` when a unit is given. -/
def sellFilter (product_id : String) (unit_id : Option String) (sell_quantity : Int)
    (p : Product) : Bool :=
  p.id == product_id && decide (sell_quantity ≤ p.quantity) &&
    (match unit_id with
     | none => true
     | some u => p.unit_id == u)

/-- Embeds `ProductRepository._sell_product`: conditional update whose `$inc`
decrements `quantity` by `sell_quantity` and increments `unit_gain` by
`profit` (the update touches no other field).  `sell_product` and
`sell_products_from_unit` are thin wrappers delegating here with
`unit_id = None` and `unit_id = some u` respectively. -/
def sell_product (ps : List Product) (product_id : String) (unit_id : Option String)
    (sell_quantity : Int) (profit : ℚ) : Option Product × List Product :=
  findOneAndUpdate ps (sellFilter product_id unit_id sell_quantity)
    (sellUpdate sell_quantity profit)

/-- Embeds `ProductRepository.insert_product`: `insert_one`, appending in natural order. -/
def insert_product (ps : List Product) (p : Product) : List Product :=
  ps ++ [p]

/-- Embeds `ProductRepository.insert_products`: `insert_many`. -/
def insert_products (ps : List Product) (new : List Product) : List Product :=
  ps ++ new

/-- The find query built by `ProductRepository.search_products`: equality
filters for each of `name`, `id`, `unit_id` that is present, and the range
`{"$gte": min_quantity, "$lte": max_quantity}` only when both bounds are
present. -/
def searchQuery (name id : Option String) (min_quantity max_quantity : Option Int)
    (unit_id : Option String) (p : Product) : Bool :=
  (match name with
   | none => true
   | some n => p.name == n) &&
  (match id with
   | none => true
   | some i => p.id == i) &&
  (match unit_id with
   | none => true
   | some u => p.unit_id == u) &&
  (match min_quantity, max_quantity with
   | some lo, some hi => decide (lo ≤ p.quantity) && decide (p.quantity ≤ hi)
   | _, _ => true)

/-- Embeds `cursor.sort(order_field, direction)` for the two fields the service layer
whitelists; any other field name never reaches the repository (the service
replaces it by `None`), so it leaves the order unchanged here. -/
def sortBy (order_field : String) (descending : Bool) (l : List Product) : List Product :=
  if order_field == "name" then
    l.mergeSort (fun a b =>
      if descending then decide (b.name ≤ a.name) else decide (a.name ≤ b.name))
  else if order_field == "quantity" then
    l.mergeSort (fun a b =>
      if descending then decide (b.quantity ≤ a.quantity) else decide (a.quantity ≤ b.quantity))
  else l

/-- Embeds `ProductRepository.search_products`: filter by the composed query, then
sort when `order_field` is present (`DESCENDING` exactly when
`order_type == "descending"`). -/
def search_products (ps : List Product) (order_field order_type name id : Option String)
    (min_quantity max_quantity : Option Int) (unit_id : Option String) : List Product :=
  match order_field with
  | none => ps.filter (searchQuery name id min_quantity max_quantity unit_id)
  | some f =>
    sortBy f (order_type == some ("descending"))
      (ps.filter (searchQuery name id min_quantity max_quantity unit_id))

end ProductRepository

namespace ProductService

/-- Embeds `ProductService._does_product_fit_in_unit`: fetch the unit (raising
`UnitNotFoundByIdError` when absent), sum `quantity * volume` over the documents of the unit, and test `free_space >= product_quantity * product_volume`. -/
def does_product_fit_in_unit (db : DB) (unit_id : String) (product_quantity : Int)
    (product_volume : ℚ) : Except Err Bool :=
  match UnitRepository.get_unit_by_id db.units unit_id with
  | none => .error .unitNotFound
  | some unit =>
    let used_space : ℚ :=
      ((ProductRepository.get_quantity_and_volume_by_unit db.products unit_id).map
        (fun qv => (qv.1 : ℚ) * qv.2)).sum
    let free_space : ℚ := unit.volume - used_space
    .ok (decide (free_space ≥ (product_quantity : ℚ) * product_volume))

/-- Embeds `ProductService._insert_product_to_unit`: check the unit exists, build the
product via `Product.from_dict` (any failure becomes
`ValueError("Invalid product format")`), and insert it. -/
def insert_product_to_unit (db : DB) (fresh : String) (id : Option String) (name : String)
    (quantity sold_quantity : Int) (weight volume : ℚ) (category : String)
    (purchase_price selling_price : ℚ) (manufacturer : String) (unit_gain : ℚ)
    (unit_id : String) : Except Err Product × DB :=
  match UnitRepository.get_unit_by_id db.units unit_id with
  | none => (.error .unitNotFound, db)
  | some _ =>
    match Product.from_dict fresh
        ⟨id, some name, some quantity, some sold_quantity, some weight, some volume,
         some category, some purchase_price, some selling_price, some manufacturer,
         some unit_gain, some unit_id⟩ with
    | .error _ => (.error .validationError, db)
    | .ok product =>
      (.ok product, { db with products := ProductRepository.insert_product db.products product })

/-- The loop body of `ProductService._insert_product_to_all_units`: one
`Product.from_dict` call per unit id (each call would generate its own fresh
UUID, hence the indexed `fresh`); the first failure raises before anything is
inserted. -/
def build_products_for_units (fresh : Nat → String) (d : String → ProductDict) :
    List String → Nat → Except Err (List Product)
  | [], _ => .ok []
  | uid :: rest, i =>
    match Product.from_dict (fresh i) (d uid) with
    | .error e => .error e
    | .ok p =>
      match build_products_for_units fresh d rest (i + 1) with
      | .error e => .error e
      | .ok ps => .ok (p :: ps)

/-- Embeds `ProductService._insert_product_to_all_units`: replicate the product into
every registered unit with `quantity = 0`, `sold_quantity = 0`,
`unit_gain = 0`, then `insert_many`. -/
def insert_product_to_all_units (db : DB) (fresh : Nat → String) (id : Option String)
    (name : String) (weight volume : ℚ) (category : String)
    (purchase_price selling_price : ℚ) (manufacturer : String) :
    Except Err (List Product) × DB :=
  match build_products_for_units fresh
      (fun unit_id =>
        ⟨id, some name, some 0, some 0, some weight, some volume, some category,
         some purchase_price, some selling_price, some manufacturer, some 0, some unit_id⟩)
      (UnitRepository.get_all_units_ids db.units) 0 with
  | .error _ => (.error .validationError, db)
  | .ok ps =>
    (.ok ps, { db with products := ProductRepository.insert_products db.products ps })

/-- Embeds `ProductService.insert_product`: with a unit id, run the capacity check
(raising `ValueError("Product ... does not fit in unit")` — a plain
`ValueError`, not `ProductDoesNotFitInUnit` — when it fails) and insert into
that unit; with no unit id, insert into all units. -/
def insert_product (db : DB) (fresh : Nat → String) (id : Option String) (name : String)
    (quantity sold_quantity : Int) (weight volume : ℚ) (category : String)
    (purchase_price selling_price : ℚ) (manufacturer : String) (unit_gain : ℚ)
    (unit_id : Option String) : Except Err (List Product) × DB :=
  match unit_id with
  | some uid =>
    match does_product_fit_in_unit db uid quantity volume with
    | .error e => (.error e, db)
    | .ok false => (.error .validationError, db)
    | .ok true =>
      match insert_product_to_unit db (fresh 0) id name quantity sold_quantity weight volume
          category purchase_price selling_price manufacturer unit_gain uid with
      | (.error e, db2) => (.error e, db2)
      | (.ok p, db2) => (.ok [p], db2)
  | none =>
    insert_product_to_all_units db fresh id name weight volume category purchase_price
      selling_price manufacturer

/-- Embeds `ProductService.search_products`: validate the quantity range only when
both bounds are supplied; pass `order_field` through only when it is in the
whitelist `{"name", "quantity"}` (otherwise pass `None, None`). -/
def search_products (db : DB) (order_field order_type name id : Option String)
    (min_quantity max_quantity : Option Int) (unit_id : Option String) :
    Except Err (List Product) :=
  if (match min_quantity, max_quantity with
      | some lo, some hi => decide (lo > hi) || decide (lo < 0) || decide (hi < 0)
      | _, _ => false) then
    .error .validationError
  else if order_field != some ("name") && order_field != some ("quantity") then
    .ok (ProductRepository.search_products db.products none none name id
      min_quantity max_quantity unit_id)
  else
    .ok (ProductRepository.search_products db.products order_field order_type name id
      min_quantity max_quantity unit_id)

/-- Embeds `ProductService.buy_product`: plain-id lookup (`ProductNotFoundByIdError`
when absent), capacity re-check in the unit of the record
(`ProductDoesNotFitInUnit` when it fails), then the repository `$inc` update
with `loss = calculate_loss(purchased_quantity)`. -/
def buy_product (db : DB) (product_id : String) (purchased_quantity : Int) :
    Except Err Product × DB :=
  match ProductRepository.get_product_by_id db.products product_id none with
  | none => (.error .productNotFound, db)
  | some product =>
    match does_product_fit_in_unit db product.unit_id purchased_quantity product.volume with
    | .error e => (.error e, db)
    | .ok false => (.error .doesNotFit, db)
    | .ok true =>
      match ProductRepository.buy_product db.products product_id purchased_quantity
          (product.calculate_loss purchased_quantity) with
      | (none, ps2) => (.error .validationError, { db with products := ps2 })
      | (some updated, ps2) => (.ok updated, { db with products := ps2 })

/-- Embeds `ProductService.sell_product`: plain-id existence check (it ignores
`unit_id`), rejection of negative quantities, profit computed from the record
found by that plain-id lookup, then the guarded conditional update; a `None`
update result is reported as `InsufficientProductQuantity`. -/
def sell_product (db : DB) (product_id : String) (quantity_to_sell : Int)
    (unit_id : Option String) : Except Err Product × DB :=
  match ProductRepository.get_product_by_id db.products product_id none with
  | none => (.error .productNotFound, db)
  | some product =>
    if quantity_to_sell < 0 then (.error .insufficientQuantity, db)
    else
      match ProductRepository.sell_product db.products product_id unit_id quantity_to_sell
          (product.calculate_profit quantity_to_sell) with
      | (none, ps2) => (.error .insufficientQuantity, { db with products := ps2 })
      | (some updated, ps2) => (.ok updated, { db with products := ps2 })

end ProductService

/-- The space used inside a unit: `Σ record.quantity * record.volume` over the
stock records stored in that unit. -/
def usedSpace (ps : List Product) (unit_id : String) : ℚ :=
  ((ps.filter (fun p => p.unit_id == unit_id)).map
    (fun p => (p.quantity : ℚ) * p.volume)).sum

/-- The capacity relation of the spec: the used space of every unit is at most its
total volume. -/
def capacityInv (db : DB) : Prop :=
  ∀ u ∈ db.units, usedSpace db.products u.id ≤ u.volume

/-- Data-model well-formedness: per-item volumes are nonnegative
(the spec declares `volume > 0` per item). -/
def volumesNonneg (ps : List Product) : Prop :=
  ∀ p ∈ ps, 0 ≤ p.volume

/-- Storage-level uniqueness of `Unit.id` (section 6 of the spec expects it from the
storage layer). -/
def unitIdsNodup (us : List Unit) : Prop :=
  (us.map (fun u => u.id)).Nodup

/-- The stock-mutating operations of the engine: single-unit insert or
insert-to-all-units (`unit_id = none`), buy, and sell. -/
inductive Op where
  | insert (fresh : Nat → String) (id : Option String) (name : String)
      (quantity sold_quantity : Int) (weight volume : ℚ) (category : String)
      (purchase_price selling_price : ℚ) (manufacturer : String) (unit_gain : ℚ)
      (unit_id : Option String)
  | buy (product_id : String) (purchased_quantity : Int)
  | sell (product_id : String) (quantity_to_sell : Int) (unit_id : Option String)

/-- Run one engine operation, returning the post-state exactly when the
operation succeeds (no exception is raised). -/
def runOp (db : DB) : Op → Except Err DB
  | .insert fresh id name quantity sold_quantity weight volume category purchase_price
      selling_price manufacturer unit_gain unit_id =>
    match ProductService.insert_product db fresh id name quantity sold_quantity weight volume
        category purchase_price selling_price manufacturer unit_gain unit_id with
    | (.ok _, db2) => .ok db2
    | (.error e, _) => .error e
  | .buy product_id purchased_quantity =>
    match ProductService.buy_product db product_id purchased_quantity with
    | (.ok _, db2) => .ok db2
    | (.error e, _) => .error e
  | .sell product_id quantity_to_sell unit_id =>
    match ProductService.sell_product db product_id quantity_to_sell unit_id with
    | (.ok _, db2) => .ok db2
    | (.error e, _) => .error e

/-! ### Concrete sample data used to evaluate the engine -/

/-- A sample storage unit. -/
def u1 : Unit := ⟨"u1", "main", 100⟩

/-- A sample stock record stored in `u1`. -/
def p1 : Product := ⟨"p1", "widget", 5, 0, 1, 1, "general", 2, 3, "acme", 0, "u1"⟩

/-- A sample database holding `p1` in `u1`. -/
def dbA : DB := ⟨[p1], [u1]⟩

/-- A unit with no free space. -/
def u0 : Unit := ⟨"u0", "tiny", 0⟩

/-- A database with the zero-volume unit and no stock. -/
def dbB : DB := ⟨[], [u0]⟩

/-- Records with quantities 2, 5 and 9 in one unit (the range example of the spec). -/
def p2 : Product := ⟨"a", "alpha", 2, 0, 1, 1, "g", 1, 2, "m", 0, "u1"⟩

/-- See `p2`. -/
def p5 : Product := ⟨"b", "beta", 5, 0, 1, 1, "g", 1, 2, "m", 0, "u1"⟩

/-- See `p2`. -/
def p9 : Product := ⟨"c", "gamma", 9, 0, 1, 1, "g", 1, 2, "m", 0, "u1"⟩

/-- A database holding `p2`, `p5`, `p9` in `u1`. -/
def dbC : DB := ⟨[p2, p5, p9], [u1]⟩

/-- A fresh-UUID supply for the insertion paths. -/
def fr : Nat → String := fun _ => "fresh-id"

/-! ### Helper lemmas about the Mongo primitives -/

theorem findOneAndUpdate_fst (l : List Product) (flt : Product → Bool)
    (upd : Product → Product) :
    (findOneAndUpdate l flt upd).1 = (l.find? flt).map upd := by
  induction l with
  | nil => rfl
  | cons a as ih =>
    by_cases ha : flt a
    · simp [findOneAndUpdate, ha, List.find?_cons_of_pos]
    · simp only [findOneAndUpdate, if_neg ha]
      rw [List.find?_cons_of_neg _ ha]
      exact ih

theorem findOneAndUpdate_snd_of_none {l : List Product} {flt : Product → Bool}
    {upd : Product → Product} (h : l.find? flt = none) :
    (findOneAndUpdate l flt upd).2 = l := by
  induction l with
  | nil => rfl
  | cons a as ih =>
    rw [List.find?_eq_none] at h
    have ha : ¬ flt a = true := h a (by simp)
    simp only [findOneAndUpdate, if_neg ha]
    have has : as.find? flt = none := by
      rw [List.find?_eq_none]
      exact fun x hx => h x (by simp [hx])
    simp [ih has]

theorem find?_append_cons {l1 l2 : List Product} {x : Product} {flt : Product → Bool}
    (h1 : ∀ y ∈ l1, flt y = false) (hx : flt x = true) :
    (l1 ++ x :: l2).find? flt = some x := by
  induction l1 with
  | nil => simpa using List.find?_cons_of_pos l2 hx
  | cons a as ih =>
    have ha : ¬ flt a = true := by simp [h1 a (by simp)]
    simp only [List.cons_append]
    rw [List.find?_cons_of_neg _ ha]
    exact ih fun y hy => h1 y (by simp [hy])

theorem findOneAndUpdate_append_cons {l1 l2 : List Product} {x : Product}
    {flt : Product → Bool} {upd : Product → Product}
    (h1 : ∀ y ∈ l1, flt y = false) (hx : flt x = true) :
    findOneAndUpdate (l1 ++ x :: l2) flt upd = (some (upd x), l1 ++ upd x :: l2) := by
  induction l1 with
  | nil => simp [findOneAndUpdate, hx]
  | cons a as ih =>
    have ha : ¬ flt a = true := by simp [h1 a (by simp)]
    have ih2 := ih fun y hy => h1 y (by simp [hy])
    simp only [List.cons_append, findOneAndUpdate, if_neg ha, List.append_eq, ih2]

theorem find?_some_decomp {l : List Product} {flt : Product → Bool} {x : Product}
    (h : l.find? flt = some x) :
    ∃ l1 l2, l = l1 ++ x :: l2 ∧ (∀ y ∈ l1, flt y = false) ∧ flt x = true := by
  induction l with
  | nil => simp [List.find?] at h
  | cons a as ih =>
    by_cases ha : flt a
    · rw [List.find?_cons_of_pos _ ha] at h
      obtain rfl : a = x := by simpa using h
      exact ⟨[], as, rfl, by simp, ha⟩
    · rw [List.find?_cons_of_neg _ ha] at h
      obtain ⟨l1, l2, rfl, hl1, hx⟩ := ih h
      refine ⟨a :: l1, l2, rfl, ?_, hx⟩
      intro y hy
      rcases List.mem_cons.mp hy with rfl | hy
      · simpa using ha
      · exact hl1 y hy

/-! ### Helper lemmas about used space and the capacity check -/

theorem usedSpace_nil (uid : String) : usedSpace [] uid = 0 := rfl

theorem usedSpace_cons (x : Product) (l : List Product) (uid : String) :
    usedSpace (x :: l) uid =
      (if x.unit_id == uid then (x.quantity : ℚ) * x.volume else 0) + usedSpace l uid := by
  by_cases h : x.unit_id == uid
  · simp [usedSpace, List.filter_cons, h]
  · simp [usedSpace, List.filter_cons, h]

theorem usedSpace_append (l1 l2 : List Product) (uid : String) :
    usedSpace (l1 ++ l2) uid = usedSpace l1 uid + usedSpace l2 uid := by
  simp [usedSpace, List.filter_append]

theorem usedSpace_zero_quantity {l : List Product} (h : ∀ p ∈ l, p.quantity = 0)
    (uid : String) : usedSpace l uid = 0 := by
  induction l with
  | nil => rfl
  | cons a as ih =>
    rw [usedSpace_cons]
    rw [h a (by simp), ih fun p hp => h p (by simp [hp])]
    simp

theorem usedSpace_replace (l1 l2 : List Product) (x x' : Product) (uid : String)
    (h : x'.unit_id = x.unit_id) :
    usedSpace (l1 ++ x' :: l2) uid =
      usedSpace (l1 ++ x :: l2) uid +
        (if x.unit_id == uid then
          (x'.quantity : ℚ) * x'.volume - (x.quantity : ℚ) * x.volume else 0) := by
  rw [usedSpace_append, usedSpace_append, usedSpace_cons, usedSpace_cons, h]
  by_cases hu : x.unit_id == uid
  · simp only [if_pos hu]; ring
  · simp only [if_neg hu]; ring

/-- Embeds `_does_product_fit_in_unit`, rewritten through `usedSpace`. -/
theorem does_product_fit_eq (db : DB) (uid : String) (q : Int) (vol : ℚ) :
    ProductService.does_product_fit_in_unit db uid q vol =
      (match UnitRepository.get_unit_by_id db.units uid with
       | none => .error .unitNotFound
       | some u => .ok (decide (u.volume - usedSpace db.products uid ≥ (q : ℚ) * vol))) := by
  unfold ProductService.does_product_fit_in_unit
  cases UnitRepository.get_unit_by_id db.units uid with
  | none => rfl
  | some u =>
    simp only [usedSpace, ProductRepository.get_quantity_and_volume_by_unit, List.map_map]
    rfl

theorem get_unit_by_id_of_mem_nodup {us : List Unit} {u : Unit} {uid : String}
    (hnd : unitIdsNodup us) (hmem : u ∈ us) (hid : u.id = uid) :
    UnitRepository.get_unit_by_id us uid = some u := by
  induction us with
  | nil => simp at hmem
  | cons v vs ih =>
    unfold unitIdsNodup at hnd
    rw [List.map_cons, List.nodup_cons] at hnd
    rcases List.mem_cons.mp hmem with rfl | hmem
    · simp [UnitRepository.get_unit_by_id, List.find?_cons_of_pos, hid]
    · have hv : ¬ ((fun w : Unit => w.id == uid) v) = true := by
        intro hveq
        exact hnd.1 (by
          rw [show v.id = uid from by simpa using hveq, ← hid]
          exact List.mem_map.mpr ⟨u, hmem, rfl⟩)
      unfold UnitRepository.get_unit_by_id
      rw [List.find?_cons_of_neg vs hv]
      exact ih hnd.2 hmem

theorem get_unit_some_mem {us : List Unit} {u : Unit} {uid : String}
    (h : UnitRepository.get_unit_by_id us uid = some u) : u ∈ us ∧ u.id = uid := by
  unfold UnitRepository.get_unit_by_id at h
  have hm := List.mem_of_find?_eq_some h
  have hp := List.find?_some h
  exact ⟨hm, by simpa using hp⟩

theorem find?_congr_pred {l : List Product} {f g : Product → Bool} (h : ∀ x, f x = g x) :
    l.find? f = l.find? g := by
  induction l with
  | nil => rfl
  | cons a as ih =>
    by_cases hf : f a
    · rw [List.find?_cons_of_pos _ hf, List.find?_cons_of_pos]
      rw [← h a]; exact hf
    · rw [List.find?_cons_of_neg _ hf, ih, List.find?_cons_of_neg]
      rw [← h a]; exact hf

/-- The plain-id query of `get_product_by_id` agrees with the filter of the
repository `buy_product` update. -/
theorem productFilter_none_eq (pid : String) (p : Product) :
    ProductRepository.productFilter pid none p = (p.id == pid) := by
  simp [ProductRepository.productFilter]

/-- Inversion of a successful `Product.from_dict`. -/
theorem from_dict_ok_spec {fresh : String} {d : ProductDict} {p : Product}
    (h : Product.from_dict fresh d = .ok p) :
    p.id = d.id.getD fresh ∧ d.name = some p.name ∧ d.quantity = some p.quantity ∧
    d.sold_quantity = some p.sold_quantity ∧ d.weight = some p.weight ∧
    d.volume = some p.volume ∧ d.category = some p.category ∧
    d.purchase_price = some p.purchase_price ∧ d.selling_price = some p.selling_price ∧
    d.manufacturer = some p.manufacturer ∧ d.unit_gain = some p.unit_gain ∧
    d.unit_id = some p.unit_id := by
  unfold Product.from_dict at h
  split at h
  · cases h; simp_all
  · cases h

/-- Every record produced by the insert-to-all-units loop comes from one
`Product.from_dict` call on the per-unit dictionary. -/
theorem build_products_mem {fresh : Nat → String} {d : String → ProductDict}
    {uids : List String} {i : Nat} {ps : List Product}
    (h : ProductService.build_products_for_units fresh d uids i = .ok ps) :
    ∀ p ∈ ps, ∃ j uid, uid ∈ uids ∧ Product.from_dict (fresh j) (d uid) = .ok p := by
  induction uids generalizing i ps with
  | nil =>
    unfold ProductService.build_products_for_units at h
    cases h; simp
  | cons uid rest ih =>
    unfold ProductService.build_products_for_units at h
    split at h
    · cases h
    · rename_i p0 hp0
      split at h
      · cases h
      · rename_i ps0 hps0
        cases h
        intro p hp
        rcases List.mem_cons.mp hp with rfl | hp
        · exact ⟨i, uid, by simp, hp0⟩
        · obtain ⟨j, u2, hu2, hfd⟩ := ih hps0 p hp
          exact ⟨j, u2, by simp [hu2], hfd⟩

/-! ### Preservation of the capacity relation by each engine operation -/

theorem capacityInv_insert_append {db : DB} {p : Product} {U : Unit}
    (hinv : capacityInv db) (hnodup : unitIdsNodup db.units)
    (hU : UnitRepository.get_unit_by_id db.units p.unit_id = some U)
    (hfit : usedSpace db.products p.unit_id + (p.quantity : ℚ) * p.volume ≤ U.volume) :
    capacityInv ⟨db.products ++ [p], db.units⟩ := by
  intro u hu
  rw [usedSpace_append]
  have hsingle : usedSpace [p] u.id =
      (if p.unit_id == u.id then (p.quantity : ℚ) * p.volume else 0) := by
    rw [usedSpace_cons, usedSpace_nil, add_zero]
  by_cases he : p.unit_id = u.id
  · have hu2 : UnitRepository.get_unit_by_id db.units p.unit_id = some u :=
      get_unit_by_id_of_mem_nodup hnodup hu he.symm
    rw [hU] at hu2
    obtain rfl : U = u := by simpa using hu2
    rw [hsingle, if_pos (by simpa using he), ← he]
    exact hfit
  · rw [hsingle, if_neg (by simpa using he), add_zero]
    exact hinv u hu

theorem capacityInv_replace_le {db : DB} {l1 l2 : List Product} {x x' : Product}
    (hps : db.products = l1 ++ x :: l2) (hinv : capacityInv db)
    (hunit : x'.unit_id = x.unit_id)
    (hle : (x'.quantity : ℚ) * x'.volume ≤ (x.quantity : ℚ) * x.volume) :
    capacityInv ⟨l1 ++ x' :: l2, db.units⟩ := by
  intro u hu
  rw [usedSpace_replace _ _ _ _ _ hunit]
  have h0 := hinv u hu
  rw [hps] at h0
  by_cases hc : x.unit_id == u.id
  · rw [if_pos hc]; linarith
  · rw [if_neg hc, add_zero]; exact h0

theorem capacityInv_replace_fit {db : DB} {l1 l2 : List Product} {x x' : Product} {U : Unit}
    (hps : db.products = l1 ++ x :: l2) (hinv : capacityInv db)
    (hnodup : unitIdsNodup db.units) (hunit : x'.unit_id = x.unit_id)
    (hU : UnitRepository.get_unit_by_id db.units x.unit_id = some U)
    (hfit : usedSpace db.products x.unit_id +
      ((x'.quantity : ℚ) * x'.volume - (x.quantity : ℚ) * x.volume) ≤ U.volume) :
    capacityInv ⟨l1 ++ x' :: l2, db.units⟩ := by
  intro u hu
  rw [usedSpace_replace _ _ _ _ _ hunit]
  by_cases hc : x.unit_id == u.id
  · have hid : u.id = x.unit_id := (show x.unit_id = u.id by simpa using hc).symm
    have hu2 : UnitRepository.get_unit_by_id db.units x.unit_id = some u :=
      get_unit_by_id_of_mem_nodup hnodup hu hid
    rw [hU] at hu2
    obtain rfl : U = u := by simpa using hu2
    rw [if_pos hc, ← hps, hid]
    exact hfit
  · rw [if_neg hc, add_zero]
    have h0 := hinv u hu
    rw [hps] at h0
    exact h0

/-- Embeds `insert_product` with an explicit unit, unfolded. -/
theorem insert_product_some_eq (db : DB) (fresh : Nat → String) (id : Option String)
    (name : String) (q sq : Int) (w v : ℚ) (c : String) (pp sp : ℚ) (m : String)
    (ug : ℚ) (u : String) :
    ProductService.insert_product db fresh id name q sq w v c pp sp m ug (some u) =
      (match ProductService.does_product_fit_in_unit db u q v with
       | .error e => (.error e, db)
       | .ok false => (.error .validationError, db)
       | .ok true =>
         match ProductService.insert_product_to_unit db (fresh 0) id name q sq w v c pp sp m
             ug u with
         | (.error e, db2) => (.error e, db2)
         | (.ok p, db2) => (.ok [p], db2)) := rfl

/-- Embeds `insert_product` with no unit delegates to the insert-to-all-units path. -/
theorem insert_product_none_eq (db : DB) (fresh : Nat → String) (id : Option String)
    (name : String) (q sq : Int) (w v : ℚ) (c : String) (pp sp : ℚ) (m : String)
    (ug : ℚ) :
    ProductService.insert_product db fresh id name q sq w v c pp sp m ug none =
      ProductService.insert_product_to_all_units db fresh id name w v c pp sp m := rfl

/-- Embeds `_insert_product_to_unit` when the unit exists: the built record is appended. -/
theorem insert_product_to_unit_some_eq (db : DB) (fresh : String) (id : Option String)
    (name : String) (q sq : Int) (w v : ℚ) (c : String) (pp sp : ℚ) (m : String)
    (ug : ℚ) (u : String) (U : Unit)
    (hU : UnitRepository.get_unit_by_id db.units u = some U) :
    ProductService.insert_product_to_unit db fresh id name q sq w v c pp sp m ug u =
      (.ok ⟨id.getD fresh, name, q, sq, w, v, c, pp, sp, m, ug, u⟩,
       { db with products :=
          db.products ++ [⟨id.getD fresh, name, q, sq, w, v, c, pp, sp, m, ug, u⟩] }) := by
  unfold ProductService.insert_product_to_unit
  rw [hU]
  exact rfl

theorem buy_preserves {db : DB} {pid : String} {pq : Int} {p : Product} {db2 : DB}
    (hnodup : unitIdsNodup db.units) (hinv : capacityInv db)
    (h : ProductService.buy_product db pid pq = (.ok p, db2)) : capacityInv db2 := by
  unfold ProductService.buy_product at h
  split at h
  · simp at h
  · rename_i P hP
    split at h
    · simp at h
    · simp at h
    · rename_i hfit
      split at h
      · simp at h
      · rename_i updated ps2 heq2
        rw [does_product_fit_eq] at hfit
        split at hfit
        · cases hfit
        · rename_i U hU
          have hdq : decide (U.volume - usedSpace db.products P.unit_id ≥
              (pq : ℚ) * P.volume) = true := by injection hfit
          have hfree : (pq : ℚ) * P.volume ≤ U.volume - usedSpace db.products P.unit_id :=
            of_decide_eq_true hdq
          have hfind : db.products.find? (fun x => x.id == pid) = some P := by
            have h3 := hP
            unfold ProductRepository.get_product_by_id at h3
            rw [find?_congr_pred (productFilter_none_eq pid)] at h3
            exact h3
          obtain ⟨l1, l2, hdec, hl1, hPf⟩ := find?_some_decomp hfind
          have hrepo : ProductRepository.buy_product db.products pid pq
              (P.calculate_loss pq) =
              (some (buyUpdate pq (P.calculate_loss pq) P),
               l1 ++ buyUpdate pq (P.calculate_loss pq) P :: l2) := by
            unfold ProductRepository.buy_product
            rw [hdec]
            exact findOneAndUpdate_append_cons hl1 hPf
          rw [hrepo] at heq2
          simp only [Prod.mk.injEq, Option.some.injEq] at heq2
          obtain ⟨-, hps2⟩ := heq2
          simp only [Prod.mk.injEq, Except.ok.injEq] at h
          obtain ⟨-, hdb2⟩ := h
          rw [← hdb2, ← hps2]
          refine capacityInv_replace_fit hdec hinv hnodup rfl hU ?_
          have hcast : (((P.quantity + pq : Int)) : ℚ) * P.volume -
              (P.quantity : ℚ) * P.volume = (pq : ℚ) * P.volume := by
            push_cast; ring
          show usedSpace db.products P.unit_id +
            (((P.quantity + pq : Int) : ℚ) * P.volume -
              (P.quantity : ℚ) * P.volume) ≤ U.volume
          rw [hcast]
          linarith

theorem sell_preserves {db : DB} {pid : String} {q : Int} {uid : Option String}
    {p : Product} {db2 : DB}
    (hvol : volumesNonneg db.products) (hinv : capacityInv db)
    (h : ProductService.sell_product db pid q uid = (.ok p, db2)) : capacityInv db2 := by
  unfold ProductService.sell_product at h
  split at h
  · simp at h
  · rename_i P hP
    split at h
    · simp at h
    · rename_i hq
      have hq0 : 0 ≤ q := by omega
      split at h
      · simp at h
      · rename_i updated ps2 heq2
        have hfst := congrArg Prod.fst heq2
        unfold ProductRepository.sell_product at hfst
        rw [findOneAndUpdate_fst] at hfst
        cases hfind : db.products.find? (ProductRepository.sellFilter pid uid q) with
        | none => rw [hfind] at hfst; cases hfst
        | some x =>
          obtain ⟨l1, l2, hdec, hl1, hxf⟩ := find?_some_decomp hfind
          have hrepo : ProductRepository.sell_product db.products pid uid q
              (P.calculate_profit q) =
              (some (sellUpdate q (P.calculate_profit q) x),
               l1 ++ sellUpdate q (P.calculate_profit q) x :: l2) := by
            unfold ProductRepository.sell_product
            rw [hdec]
            exact findOneAndUpdate_append_cons hl1 hxf
          rw [hrepo] at heq2
          simp only [Prod.mk.injEq, Option.some.injEq] at heq2
          obtain ⟨-, hps2⟩ := heq2
          simp only [Prod.mk.injEq, Except.ok.injEq] at h
          obtain ⟨-, hdb2⟩ := h
          rw [← hdb2, ← hps2]
          have hxvol : 0 ≤ x.volume := by
            refine hvol x ?_
            rw [hdec]; simp
          refine capacityInv_replace_le hdec hinv rfl ?_
          show (((x.quantity - q : Int)) : ℚ) * x.volume ≤ (x.quantity : ℚ) * x.volume
          have hqv : 0 ≤ (q : ℚ) * x.volume := by
            refine mul_nonneg ?_ hxvol
            exact_mod_cast hq0
          have hsub : (((x.quantity - q : Int)) : ℚ) * x.volume =
              (x.quantity : ℚ) * x.volume - (q : ℚ) * x.volume := by push_cast; ring
          linarith [hsub]

theorem insert_preserves {db : DB} {fresh : Nat → String} {id : Option String}
    {name : String} {q sq : Int} {w v : ℚ} {c : String} {pp sp : ℚ} {m : String}
    {ug : ℚ} {uid : Option String} {ps : List Product} {db2 : DB}
    (hnodup : unitIdsNodup db.units) (hinv : capacityInv db)
    (h : ProductService.insert_product db fresh id name q sq w v c pp sp m ug uid =
      (.ok ps, db2)) : capacityInv db2 := by
  cases uid with
  | some u =>
    rw [insert_product_some_eq] at h
    split at h
    · simp at h
    · simp at h
    · rename_i hfit
      rw [does_product_fit_eq] at hfit
      split at hfit
      · cases hfit
      · rename_i U hU
        have hdq : decide (U.volume - usedSpace db.products u ≥ (q : ℚ) * v) = true := by
          injection hfit
        have hfree : (q : ℚ) * v ≤ U.volume - usedSpace db.products u :=
          of_decide_eq_true hdq
        rw [insert_product_to_unit_some_eq db (fresh 0) id name q sq w v c pp sp m ug u U hU]
          at h
        simp only [Prod.mk.injEq, Except.ok.injEq] at h
        obtain ⟨-, hdb2⟩ := h
        rw [← hdb2]
        refine capacityInv_insert_append hinv hnodup (U := U) hU ?_
        show usedSpace db.products u + (q : ℚ) * v ≤ U.volume
        linarith
  | none =>
    rw [insert_product_none_eq] at h
    unfold ProductService.insert_product_to_all_units at h
    split at h
    · simp at h
    · rename_i ps0 hbuild
      simp only [Prod.mk.injEq, Except.ok.injEq] at h
      obtain ⟨-, hdb2⟩ := h
      have hq0 : ∀ r ∈ ps0, r.quantity = 0 := by
        intro r hr
        obtain ⟨j, u2, -, hfd⟩ := build_products_mem hbuild r hr
        have h2 := (from_dict_ok_spec hfd).2.2.1
        simpa using h2.symm
      rw [← hdb2]
      intro u hu
      show usedSpace (ProductRepository.insert_products db.products ps0) u.id ≤ u.volume
      unfold ProductRepository.insert_products
      rw [usedSpace_append, usedSpace_zero_quantity hq0, add_zero]
      exact hinv u hu

/-! ### Unfolding equations for the service layer -/

/-- Embeds `sell_product` when the plain-id lookup misses. -/
theorem sell_product_miss_eq (db : DB) (pid : String) (q : Int) (uid : Option String)
    (h : ProductRepository.get_product_by_id db.products pid none = none) :
    ProductService.sell_product db pid q uid = (.error .productNotFound, db) := by
  unfold ProductService.sell_product
  rw [h]

/-- Embeds `sell_product` when the plain-id lookup hits. -/
theorem sell_product_hit_eq (db : DB) (pid : String) (q : Int) (uid : Option String)
    (P : Product)
    (h : ProductRepository.get_product_by_id db.products pid none = some P) :
    ProductService.sell_product db pid q uid =
      (if q < 0 then (.error .insufficientQuantity, db)
       else
        match ProductRepository.sell_product db.products pid uid q
            (P.calculate_profit q) with
        | (none, ps2) => (.error .insufficientQuantity, ⟨ps2, db.units⟩)
        | (some updated, ps2) => (.ok updated, ⟨ps2, db.units⟩)) := by
  unfold ProductService.sell_product
  rw [h]

/-- Embeds `buy_product` when the plain-id lookup hits. -/
theorem buy_product_hit_eq (db : DB) (pid : String) (pq : Int) (P : Product)
    (h : ProductRepository.get_product_by_id db.products pid none = some P) :
    ProductService.buy_product db pid pq =
      (match ProductService.does_product_fit_in_unit db P.unit_id pq P.volume with
       | .error e => (.error e, db)
       | .ok false => (.error .doesNotFit, db)
       | .ok true =>
         match ProductRepository.buy_product db.products pid pq (P.calculate_loss pq) with
         | (none, ps2) => (.error .validationError, ⟨ps2, db.units⟩)
         | (some updated, ps2) => (.ok updated, ⟨ps2, db.units⟩)) := by
  unfold ProductService.buy_product
  rw [h]

/-! ### Characterisations of the lookup and sell filters -/

theorem get_product_by_id_none_iff {ps : List Product} {pid : String} :
    ProductRepository.get_product_by_id ps pid none = none ↔ ∀ r ∈ ps, ¬ r.id = pid := by
  unfold ProductRepository.get_product_by_id
  rw [List.find?_eq_none]
  constructor
  · intro h r hr
    have h2 := h r hr
    simp [ProductRepository.productFilter] at h2
    exact h2
  · intro h r hr
    simp [ProductRepository.productFilter]
    exact h r hr

theorem get_product_by_id_some_mem {ps : List Product} {pid : String} {P : Product}
    (h : ProductRepository.get_product_by_id ps pid none = some P) :
    P ∈ ps ∧ P.id = pid := by
  unfold ProductRepository.get_product_by_id at h
  refine ⟨List.mem_of_find?_eq_some h, ?_⟩
  have h2 := List.find?_some h
  simp [ProductRepository.productFilter] at h2
  exact h2

theorem sellFilter_eq_true_iff {pid : String} {uid : Option String} {q : Int}
    {r : Product} :
    ProductRepository.sellFilter pid uid q r = true ↔
      (r.id = pid ∧ q ≤ r.quantity ∧ (uid = none ∨ uid = some r.unit_id)) := by
  unfold ProductRepository.sellFilter
  cases uid with
  | none => simp [and_assoc]
  | some u =>
    simp only [Bool.and_eq_true, beq_iff_eq, decide_eq_true_eq]
    constructor
    · rintro ⟨⟨h1, h2⟩, h3⟩
      exact ⟨h1, h2, Or.inr (by rw [h3])⟩
    · rintro ⟨h1, h2, h3 | h3⟩
      · cases h3
      · exact ⟨⟨h1, h2⟩, by injection h3 with h4; rw [h4]⟩

/-- Full behaviour of the service-layer sell for a nonnegative quantity:
the three outcomes (product missing, guard unmatched, success) with the exact
post-state in each case. -/
theorem sell_product_spec (db : DB) (pid : String) (q : Int) (uid : Option String)
    (hq : ¬ q < 0) :
    (ProductRepository.get_product_by_id db.products pid none = none →
      ProductService.sell_product db pid q uid = (.error .productNotFound, db)) ∧
    (∀ P, ProductRepository.get_product_by_id db.products pid none = some P →
      (db.products.find? (ProductRepository.sellFilter pid uid q) = none →
        ProductService.sell_product db pid q uid = (.error .insufficientQuantity, db)) ∧
      (∀ x, db.products.find? (ProductRepository.sellFilter pid uid q) = some x →
        ∃ l1 l2, db.products = l1 ++ x :: l2 ∧
          (∀ y ∈ l1, ProductRepository.sellFilter pid uid q y = false) ∧
          ProductService.sell_product db pid q uid =
            (.ok (sellUpdate q (P.calculate_profit q) x),
             ⟨l1 ++ sellUpdate q (P.calculate_profit q) x :: l2, db.units⟩))) := by
  refine ⟨sell_product_miss_eq db pid q uid, ?_⟩
  intro P hP
  constructor
  · intro hfind
    have hrepo : ProductRepository.sell_product db.products pid uid q
        (P.calculate_profit q) = ((none : Option Product), db.products) := by
      unfold ProductRepository.sell_product
      have h1 := findOneAndUpdate_fst db.products (ProductRepository.sellFilter pid uid q)
        (sellUpdate q (P.calculate_profit q))
      rw [hfind] at h1
      have h2 := @findOneAndUpdate_snd_of_none db.products
        (ProductRepository.sellFilter pid uid q)
        (sellUpdate q (P.calculate_profit q)) hfind
      exact Prod.ext h1 h2
    rw [sell_product_hit_eq db pid q uid P hP, if_neg hq, hrepo]
  · intro x hfind
    obtain ⟨l1, l2, hdec, hl1, hxf⟩ := find?_some_decomp hfind
    have hrepo : ProductRepository.sell_product db.products pid uid q
        (P.calculate_profit q) =
        (some (sellUpdate q (P.calculate_profit q) x),
         l1 ++ sellUpdate q (P.calculate_profit q) x :: l2) := by
      unfold ProductRepository.sell_product
      rw [hdec]
      exact findOneAndUpdate_append_cons hl1 hxf
    refine ⟨l1, l2, hdec, hl1, ?_⟩
    rw [sell_product_hit_eq db pid q uid P hP, if_neg hq, hrepo]

/-! ### Claim theorems -/

/-- C1: at the sell scenario of the spec itself — `p1` in `u1` with `quantity = 5`,
`sell(p1, u1, 5)` with caller-computed profit `(3 − 2) · 5 = 5` — the sale
succeeds and returns the post-update record with `quantity` decreased by 5 and
`unit_gain` increased by the profit, but `sold_quantity` is NOT increased by
5: the repository update increments only `quantity` and `unit_gain`, so the
returned record still has `sold_quantity = 0` where the claim requires 5. -/
theorem C1_sell_does_not_increment_sold_quantity :
    ProductService.sell_product dbA ("p1") 5 (some ("u1")) =
      (.ok ⟨"p1", "widget", 0, 0, 1, 1, "general", 2, 3, "acme", 5, "u1"⟩,
       ⟨[⟨"p1", "widget", 0, 0, 1, 1, "general", 2, 3, "acme", 5, "u1"⟩], [u1]⟩) ∧
    ¬ (Product.sold_quantity ⟨"p1", "widget", 0, 0, 1, 1, "general", 2, 3, "acme", 5, "u1"⟩ =
        p1.sold_quantity + 5) := by
  constructor
  · norm_num [ProductService.sell_product, ProductRepository.get_product_by_id,
      ProductRepository.productFilter, ProductRepository.sell_product,
      ProductRepository.sellFilter, findOneAndUpdate, sellUpdate,
      Product.calculate_profit, dbA, p1, u1, List.find?]
  · simp [p1]

/-- C2 counterexample: the record `p1` exists, but only in unit `u1`; selling
it from unit `u2` raises `InsufficientProductQuantity`, not
`ProductNotFoundByIdError`, contradicting the claim that ProductNotFound is
raised exactly when there is no record in the supplied unit — the prior
existence check ignores `unit_id`. -/
theorem C2_unit_scoped_miss_is_insufficient :
    (ProductService.sell_product dbA ("p1") 1 (some ("u2"))).1 =
      .error .insufficientQuantity ∧
    Err.insufficientQuantity ≠ Err.productNotFound := by
  refine ⟨?_, by decide⟩
  norm_num [ProductService.sell_product, ProductRepository.get_product_by_id,
    ProductRepository.productFilter, ProductRepository.sell_product,
    ProductRepository.sellFilter, findOneAndUpdate, sellUpdate,
    Product.calculate_profit, dbA, p1, u1, List.find?]
  rw [if_neg (show ¬ ("u1" = "u2") by decide)]

/-- C4: `fits` raises `UnitNotFound` exactly when no unit with the id exists;
otherwise, with `u` the fetched unit, it returns `true` exactly when
`incoming_quantity · incoming_item_volume` is at most `u.volume` minus the sum
of `quantity · volume` over the stock records stored in that unit. -/
theorem C4_fits_characterisation (db : DB) (uid : String) (q : Int) (vol : ℚ) :
    ((∀ u ∈ db.units, ¬ u.id = uid) ↔
      ProductService.does_product_fit_in_unit db uid q vol = .error .unitNotFound) ∧
    (∀ u, UnitRepository.get_unit_by_id db.units uid = some u →
      (ProductService.does_product_fit_in_unit db uid q vol = .ok true ↔
        (q : ℚ) * vol ≤ u.volume -
          ((db.products.filter (fun r => r.unit_id == uid)).map
            (fun r => (r.quantity : ℚ) * r.volume)).sum)) := by
  constructor
  · rw [does_product_fit_eq]
    cases h : UnitRepository.get_unit_by_id db.units uid with
    | none =>
      refine iff_of_true ?_ rfl
      intro u hu
      unfold UnitRepository.get_unit_by_id at h
      rw [List.find?_eq_none] at h
      simpa using h u hu
    | some u =>
      obtain ⟨hmem, hid⟩ := get_unit_some_mem h
      refine iff_of_false ?_ (by simp)
      intro hall
      exact absurd hid (hall u hmem)
  · intro u hu
    rw [does_product_fit_eq, hu]
    simp only [Except.ok.injEq, decide_eq_true_eq, ge_iff_le]
    unfold usedSpace
    exact Iff.rfl

/-- C4 witness. -/
theorem C4_fits_characterisation_witness :
    ProductService.does_product_fit_in_unit dbA ("u1") 2 3 = .ok true ↔
      (2 : ℚ) * 3 ≤ u1.volume -
        ((dbA.products.filter (fun r => r.unit_id == "u1")).map
          (fun r => (r.quantity : ℚ) * r.volume)).sum :=
  (C4_fits_characterisation dbA ("u1") 2 3).2 u1 (by
    simp [UnitRepository.get_unit_by_id, dbA, u1, List.find?])

/-- C5: buy raises `ProductNotFound` when the id does not exist (state
unchanged); raises `DoesNotFit` when the capacity re-check fails (state
unchanged); and when the re-check passes it updates the single located record
in place — `quantity` increased by `purchase_quantity`, `unit_gain` decreased
by `purchase_quantity · purchase_price`, all other fields unchanged — and
returns the updated record. -/
theorem C5_buy_product_spec (db : DB) (pid : String) (pq : Int) :
    ((∀ r ∈ db.products, ¬ r.id = pid) →
      ProductService.buy_product db pid pq = (.error .productNotFound, db)) ∧
    (∀ P, ProductRepository.get_product_by_id db.products pid none = some P →
      (ProductService.does_product_fit_in_unit db P.unit_id pq P.volume = .ok false →
        ProductService.buy_product db pid pq = (.error .doesNotFit, db)) ∧
      (ProductService.does_product_fit_in_unit db P.unit_id pq P.volume = .ok true →
        ∃ l1 l2, db.products = l1 ++ P :: l2 ∧ (∀ y ∈ l1, ¬ y.id = pid) ∧
          ProductService.buy_product db pid pq =
            (.ok { P with quantity := P.quantity + pq,
                          unit_gain := P.unit_gain - P.purchase_price * pq },
             ⟨l1 ++ { P with quantity := P.quantity + pq,
                             unit_gain := P.unit_gain - P.purchase_price * pq } :: l2,
              db.units⟩))) := by
  constructor
  · intro hall
    have hnone : ProductRepository.get_product_by_id db.products pid none = none :=
      get_product_by_id_none_iff.mpr hall
    unfold ProductService.buy_product
    rw [hnone]
  · intro P hP
    constructor
    · intro hfit
      rw [buy_product_hit_eq db pid pq P hP, hfit]
    · intro hfit
      have hfind : db.products.find? (fun x => x.id == pid) = some P := by
        have h3 := hP
        unfold ProductRepository.get_product_by_id at h3
        rw [find?_congr_pred (productFilter_none_eq pid)] at h3
        exact h3
      obtain ⟨l1, l2, hdec, hl1, hPf⟩ := find?_some_decomp hfind
      have hrepo : ProductRepository.buy_product db.products pid pq
          (P.calculate_loss pq) =
          (some (buyUpdate pq (P.calculate_loss pq) P),
           l1 ++ buyUpdate pq (P.calculate_loss pq) P :: l2) := by
        unfold ProductRepository.buy_product
        rw [hdec]
        exact findOneAndUpdate_append_cons hl1 hPf
      refine ⟨l1, l2, hdec, ?_, ?_⟩
      · intro y hy
        have h4 := hl1 y hy
        simpa using h4
      · rw [buy_product_hit_eq db pid pq P hP, hfit, hrepo]
        have hgain : P.unit_gain + P.calculate_loss pq =
            P.unit_gain - P.purchase_price * pq := by
          unfold Product.calculate_loss
          ring
        unfold buyUpdate
        rw [hgain]

/-- C5 witness: buying 2 items of `p1` in `dbA`. -/
theorem C5_buy_product_spec_witness :
    ∃ l1 l2, dbA.products = l1 ++ p1 :: l2 ∧ (∀ y ∈ l1, ¬ y.id = "p1") ∧
      ProductService.buy_product dbA ("p1") 2 =
        (.ok { p1 with quantity := p1.quantity + 2,
                       unit_gain := p1.unit_gain - p1.purchase_price * 2 },
         ⟨l1 ++ { p1 with quantity := p1.quantity + 2,
                          unit_gain := p1.unit_gain - p1.purchase_price * 2 } :: l2,
          dbA.units⟩) :=
  ((C5_buy_product_spec dbA ("p1") 2).2 p1 (by
      simp [ProductRepository.get_product_by_id, ProductRepository.productFilter,
        dbA, p1, List.find?])).2 (by
    norm_num [ProductService.does_product_fit_in_unit, UnitRepository.get_unit_by_id,
      ProductRepository.get_quantity_and_volume_by_unit, dbA, p1, u1, List.find?])

/-- C6: selling a negative quantity of an existing product raises
`InsufficientQuantity` and leaves the database — in particular the `quantity` of the product,
its, `sold_quantity` and `unit_gain` — exactly unchanged. -/
theorem C6_negative_sell_rejected (db : DB) (pid : String) (q : Int)
    (uid : Option String) (P : Product)
    (hP : ProductRepository.get_product_by_id db.products pid none = some P)
    (hq : q < 0) :
    ProductService.sell_product db pid q uid = (.error .insufficientQuantity, db) := by
  rw [sell_product_hit_eq db pid q uid P hP, if_pos hq]

/-- C6 witness. -/
theorem C6_negative_sell_rejected_witness :
    ProductService.sell_product dbA ("p1") (-3) none =
      (.error .insufficientQuantity, dbA) :=
  C6_negative_sell_rejected dbA ("p1") (-3) none p1 (by
    simp [ProductRepository.get_product_by_id, ProductRepository.productFilter,
      dbA, p1, List.find?]) (by decide)

/-- C8 counterexample: in `dbB` the unit `u0` has volume 0, so inserting one
item of volume 1 fails the capacity check; the engine then raises the generic
`ValueError` ("Product ... does not fit in unit"), a different condition from
the distinct `ProductDoesNotFitInUnit` exception — refuting the claim that the
insert path raises the same distinct DoesNotFit condition as the buy path. -/
theorem C8_insert_path_raises_generic_error :
    (ProductService.insert_product dbB fr (some ("p2x")) ("gadget") 1 0 1 1 ("g") 1 2
      ("m") 0 (some ("u0"))).1 = .error .validationError ∧
    Err.validationError ≠ Err.doesNotFit := by
  refine ⟨?_, by decide⟩
  norm_num [ProductService.insert_product, ProductService.does_product_fit_in_unit,
    UnitRepository.get_unit_by_id, ProductRepository.get_quantity_and_volume_by_unit,
    dbB, u0, List.find?]

/-- C8 (amended): when the capacity check fails, buy raises the distinct
catchable `DoesNotFit` condition, distinguishable from every other error
condition of the engine; the single-unit insert path instead raises the
generic validation error (`ValueError`), not the distinct DoesNotFit
condition. In both cases the database is unchanged. -/
theorem C8_doesNotFit_paths (db : DB) :
    (∀ pid pq P, ProductRepository.get_product_by_id db.products pid none = some P →
      ProductService.does_product_fit_in_unit db P.unit_id pq P.volume = .ok false →
      ProductService.buy_product db pid pq = (.error .doesNotFit, db)) ∧
    (∀ fresh id name q sq w v c pp sp m ug uid,
      ProductService.does_product_fit_in_unit db uid q v = .ok false →
      ProductService.insert_product db fresh id name q sq w v c pp sp m ug (some uid) =
        (.error .validationError, db)) ∧
    (Err.doesNotFit ≠ Err.unitNotFound ∧ Err.doesNotFit ≠ Err.productNotFound ∧
     Err.doesNotFit ≠ Err.insufficientQuantity ∧ Err.doesNotFit ≠ Err.validationError) := by
  refine ⟨?_, ?_, by decide, by decide, by decide, by decide⟩
  · intro pid pq P hP hfit
    rw [buy_product_hit_eq db pid pq P hP, hfit]
  · intro fresh id name q sq w v c pp sp m ug uid hfit
    rw [insert_product_some_eq, hfit]

/-- C8 witness: a failing buy in `dbA` and a failing insert in `dbB`. -/
theorem C8_doesNotFit_paths_witness :
    ProductService.buy_product dbA ("p1") 1000 = (.error .doesNotFit, dbA) ∧
    ProductService.insert_product dbB fr (some ("p2x")) ("gadget") 1 0 1 1 ("g") 1 2
      ("m") 0 (some ("u0")) = (.error .validationError, dbB) :=
  ⟨(C8_doesNotFit_paths dbA).1 ("p1") 1000 p1 (by
      simp [ProductRepository.get_product_by_id, ProductRepository.productFilter,
        dbA, p1, List.find?]) (by
      norm_num [ProductService.does_product_fit_in_unit, UnitRepository.get_unit_by_id,
        ProductRepository.get_quantity_and_volume_by_unit, dbA, p1, u1, List.find?]),
   (C8_doesNotFit_paths dbB).2.1 fr (some ("p2x")) ("gadget") 1 0 1 1 ("g") 1 2
     ("m") 0 ("u0") (by
      norm_num [ProductService.does_product_fit_in_unit, UnitRepository.get_unit_by_id,
        ProductRepository.get_quantity_and_volume_by_unit, dbB, u0, List.find?])⟩

/-- C2 (amended): for a nonnegative requested quantity, sell fails exactly when
the guarded conditional update matches no record, with the two causes
distinguished by the prior plain-id existence check — which ignores `unit_id`:
`ProductNotFound` is raised exactly when no record with the id exists in any
unit, and `InsufficientQuantity` exactly when some record with the id exists
but no record satisfies the full guard (id, unit when given, quantity at least
the request); on any failure the database is completely unchanged; and selling
`q > 0` from the unique record carrying the id, whose `quantity = q`, succeeds
exactly once — the identical second sell raises `InsufficientQuantity`. -/
theorem C2_sell_error_characterisation (db : DB) (pid : String) (q : Int)
    (uid : Option String) (hq : 0 ≤ q) :
    ((ProductService.sell_product db pid q uid).1 = .error .productNotFound ↔
      ∀ r ∈ db.products, ¬ r.id = pid) ∧
    ((ProductService.sell_product db pid q uid).1 = .error .insufficientQuantity ↔
      ((∃ r ∈ db.products, r.id = pid) ∧
       ∀ r ∈ db.products, ¬ (r.id = pid ∧ q ≤ r.quantity ∧
         (uid = none ∨ uid = some r.unit_id)))) ∧
    (∀ e, (ProductService.sell_product db pid q uid).1 = .error e →
      (ProductService.sell_product db pid q uid).2 = db) ∧
    (∀ l1 r l2, db.products = l1 ++ r :: l2 → (∀ y ∈ l1 ++ l2, ¬ y.id = pid) →
      r.id = pid → r.quantity = q → 0 < q → (uid = none ∨ uid = some r.unit_id) →
      (ProductService.sell_product db pid q uid).1 =
        .ok (sellUpdate q (r.calculate_profit q) r) ∧
      (ProductService.sell_product (ProductService.sell_product db pid q uid).2
        pid q uid).1 = .error .insufficientQuantity) := by
  have hq2 : ¬ q < 0 := by omega
  have hspec := sell_product_spec db pid q uid hq2
  refine ⟨?_, ?_, ?_, ?_⟩
  · cases hlk : ProductRepository.get_product_by_id db.products pid none with
    | none =>
      rw [hspec.1 hlk]
      exact iff_of_true rfl (get_product_by_id_none_iff.mp hlk)
    | some P =>
      obtain ⟨hPmem, hPid⟩ := get_product_by_id_some_mem hlk
      have h2 := hspec.2 P hlk
      refine iff_of_false ?_ ?_
      · intro hcontra
        cases hfind : db.products.find? (ProductRepository.sellFilter pid uid q) with
        | none =>
          rw [h2.1 hfind] at hcontra
          simp at hcontra
        | some x =>
          obtain ⟨l1, l2, -, -, heq⟩ := h2.2 x hfind
          rw [heq] at hcontra
          simp at hcontra
      · intro hall
        exact hall P hPmem hPid
  · cases hlk : ProductRepository.get_product_by_id db.products pid none with
    | none =>
      rw [hspec.1 hlk]
      refine iff_of_false (by simp) ?_
      rintro ⟨⟨r, hr, hrid⟩, -⟩
      exact get_product_by_id_none_iff.mp hlk r hr hrid
    | some P =>
      obtain ⟨hPmem, hPid⟩ := get_product_by_id_some_mem hlk
      have h2 := hspec.2 P hlk
      cases hfind : db.products.find? (ProductRepository.sellFilter pid uid q) with
      | none =>
        rw [h2.1 hfind]
        refine iff_of_true rfl ⟨⟨P, hPmem, hPid⟩, ?_⟩
        intro r hr hcond
        have hft : ProductRepository.sellFilter pid uid q r = true :=
          sellFilter_eq_true_iff.mpr hcond
        rw [List.find?_eq_none] at hfind
        exact hfind r hr hft
      | some x =>
        obtain ⟨l1, l2, hdec2, -, heq⟩ := h2.2 x hfind
        rw [heq]
        refine iff_of_false (by simp) ?_
        rintro ⟨-, hall⟩
        have hxmem : x ∈ db.products := by rw [hdec2]; simp
        have hxf : ProductRepository.sellFilter pid uid q x = true :=
          List.find?_some hfind
        exact hall x hxmem (sellFilter_eq_true_iff.mp hxf)
  · intro e he
    cases hlk : ProductRepository.get_product_by_id db.products pid none with
    | none => rw [hspec.1 hlk]
    | some P =>
      have h2 := hspec.2 P hlk
      cases hfind : db.products.find? (ProductRepository.sellFilter pid uid q) with
      | none => rw [h2.1 hfind]
      | some x =>
        obtain ⟨l1, l2, -, -, heq⟩ := h2.2 x hfind
        rw [heq] at he
        simp at he
  · intro l1 r l2 hdec hothers hrid hrq hqpos huid
    have hrfilter : ProductRepository.sellFilter pid uid q r = true :=
      sellFilter_eq_true_iff.mpr ⟨hrid, by omega, huid⟩
    have hl1 : ∀ y ∈ l1, ProductRepository.sellFilter pid uid q y = false := by
      intro y hy
      have hyid : ¬ y.id = pid := hothers y (List.mem_append.mpr (Or.inl hy))
      cases hsf : ProductRepository.sellFilter pid uid q y with
      | false => rfl
      | true => exact absurd (sellFilter_eq_true_iff.mp hsf).1 hyid
    have hlk : ProductRepository.get_product_by_id db.products pid none = some r := by
      unfold ProductRepository.get_product_by_id
      rw [hdec]
      refine find?_append_cons ?_ (by simp [ProductRepository.productFilter, hrid])
      intro y hy
      have hyid : ¬ y.id = pid := hothers y (List.mem_append.mpr (Or.inl hy))
      simp [ProductRepository.productFilter]
      exact hyid
    have hrepo : ProductRepository.sell_product db.products pid uid q
        (r.calculate_profit q) =
        (some (sellUpdate q (r.calculate_profit q) r),
         l1 ++ sellUpdate q (r.calculate_profit q) r :: l2) := by
      unfold ProductRepository.sell_product
      rw [hdec]
      exact findOneAndUpdate_append_cons hl1 hrfilter
    have heq : ProductService.sell_product db pid q uid =
        (.ok (sellUpdate q (r.calculate_profit q) r),
         ⟨l1 ++ sellUpdate q (r.calculate_profit q) r :: l2, db.units⟩) := by
      rw [sell_product_hit_eq db pid q uid r hlk, if_neg hq2, hrepo]
    refine ⟨by rw [heq], ?_⟩
    rw [heq]
    have hfind2 : (l1 ++ sellUpdate q (r.calculate_profit q) r :: l2).find?
        (ProductRepository.sellFilter pid uid q) = none := by
      rw [List.find?_eq_none]
      intro y hy
      rcases List.mem_append.mp hy with hy1 | hy2
      · rw [hl1 y hy1]; simp
      · rcases List.mem_cons.mp hy2 with rfl | hy3
        · intro hcontra
          have hc2 := (sellFilter_eq_true_iff.mp hcontra).2.1
          have hq0 : (sellUpdate q (r.calculate_profit q) r).quantity = 0 := by
            unfold sellUpdate
            simp [hrq]
          rw [hq0] at hc2
          omega
        · intro hcontra
          exact hothers y (List.mem_append.mpr (Or.inr hy3))
            (sellFilter_eq_true_iff.mp hcontra).1
    have hlk2 : ProductRepository.get_product_by_id
        (l1 ++ sellUpdate q (r.calculate_profit q) r :: l2) pid none =
        some (sellUpdate q (r.calculate_profit q) r) := by
      unfold ProductRepository.get_product_by_id
      refine find?_append_cons ?_ ?_
      · intro y hy
        have hyid : ¬ y.id = pid := hothers y (List.mem_append.mpr (Or.inl hy))
        simp [ProductRepository.productFilter]
        exact hyid
      · have hupid : (sellUpdate q (r.calculate_profit q) r).id = pid := hrid
        simp [ProductRepository.productFilter, hupid]
    have hspec2 := sell_product_spec
      ⟨l1 ++ sellUpdate q (r.calculate_profit q) r :: l2, db.units⟩ pid q uid hq2
    have hres := (hspec2.2 (sellUpdate q (r.calculate_profit q) r) hlk2).1 hfind2
    rw [hres]

/-- C2 witness: the sell-twice scenario of the spec on `dbA`. -/
theorem C2_sell_error_characterisation_witness :
    (ProductService.sell_product dbA ("p1") 5 (some ("u1"))).1 =
      .ok (sellUpdate 5 (p1.calculate_profit 5) p1) ∧
    (ProductService.sell_product (ProductService.sell_product dbA ("p1") 5
      (some ("u1"))).2 ("p1") 5 (some ("u1"))).1 = .error .insufficientQuantity :=
  (C2_sell_error_characterisation dbA ("p1") 5 (some ("u1")) (by decide)).2.2.2
    [] p1 [] rfl (by simp) rfl rfl (by decide) (Or.inr rfl)

/-- C3: starting from a database whose units all satisfy the capacity relation
— and which conforms to the data model and storage constraints: unit ids are
unique and per-item volumes are nonnegative — every successful engine
operation (single-unit insert, insert to all units, buy, sell) preserves, for
every unit, that the sum of `quantity · volume` over the stock records of the unit
is at most the volume of the unit. -/
theorem C3_capacity_relation_preserved (db : DB) (op : Op) (db2 : DB)
    (hnodup : unitIdsNodup db.units) (hvol : volumesNonneg db.products)
    (hinv : capacityInv db) (hrun : runOp db op = .ok db2) : capacityInv db2 := by
  cases op with
  | insert fresh id name quantity sold_quantity weight volume category purchase_price
      selling_price manufacturer unit_gain unit_id =>
    simp only [runOp] at hrun
    split at hrun
    · rename_i ps db3 hins
      obtain rfl : db3 = db2 := by injection hrun
      exact insert_preserves hnodup hinv hins
    · cases hrun
  | buy product_id purchased_quantity =>
    simp only [runOp] at hrun
    split at hrun
    · rename_i p3 db3 hbuy
      obtain rfl : db3 = db2 := by injection hrun
      exact buy_preserves hnodup hinv hbuy
    · cases hrun
  | sell product_id quantity_to_sell unit_id =>
    simp only [runOp] at hrun
    split at hrun
    · rename_i p3 db3 hsell
      obtain rfl : db3 = db2 := by injection hrun
      exact sell_preserves hvol hinv hsell
    · cases hrun

/-- C3 witness: inserting a product into all units of `dbA`. -/
theorem C3_capacity_relation_preserved_witness :
    capacityInv ⟨[p1, ⟨"fresh-id", "n2", 0, 0, 2, 2, "g", 1, 2, "m", 0, "u1"⟩], [u1]⟩ :=
  C3_capacity_relation_preserved dbA
    (Op.insert fr none ("n2") 0 0 2 2 ("g") 1 2 ("m") 0 none)
    ⟨[p1, ⟨"fresh-id", "n2", 0, 0, 2, 2, "g", 1, 2, "m", 0, "u1"⟩], [u1]⟩
    (by unfold unitIdsNodup; decide) (by unfold volumesNonneg; decide)
    (by
      intro u hu
      simp only [dbA, List.mem_singleton] at hu
      subst hu
      norm_num [usedSpace, dbA, p1, u1, List.filter])
    rfl

/-! ### Search helpers -/

theorem mem_sortBy {f : String} {b : Bool} {l : List Product} {p : Product} :
    p ∈ ProductRepository.sortBy f b l ↔ p ∈ l := by
  unfold ProductRepository.sortBy
  split
  · exact List.mem_mergeSort
  · split
    · exact List.mem_mergeSort
    · exact Iff.rfl

theorem mem_search_products {ps : List Product} {of ot name id : Option String}
    {mn mx : Option Int} {uid : Option String} {p : Product} :
    p ∈ ProductRepository.search_products ps of ot name id mn mx uid ↔
      p ∈ ps ∧ ProductRepository.searchQuery name id mn mx uid p = true := by
  unfold ProductRepository.search_products
  cases of with
  | none => exact List.mem_filter
  | some f => rw [mem_sortBy]; exact List.mem_filter

theorem searchQuery_both_iff (name id : Option String) (lo hi : Int)
    (uid : Option String) (p : Product) :
    ProductRepository.searchQuery name id (some lo) (some hi) uid p = true ↔
      ((∀ n, name = some n → p.name = n) ∧ (∀ i, id = some i → p.id = i) ∧
       (∀ w, uid = some w → p.unit_id = w) ∧ lo ≤ p.quantity ∧ p.quantity ≤ hi) := by
  unfold ProductRepository.searchQuery
  cases name <;> cases id <;> cases uid <;>
    simp [and_assoc, and_comm, and_left_comm]

/-- Embeds `search_products` with no ordering, no name filter and no range filter. -/
theorem search_products_plain_eq (db : DB) (id0 : Option String) :
    ProductService.search_products db none none none id0 none none none =
      .ok (ProductRepository.search_products db.products none none none id0
        none none none) := rfl

/-! ### Remaining claim theorems -/

/-- C7: the inclusive quantity range filter applies only when both bounds are
supplied — supplying exactly one bound yields the very same call as supplying
neither (no quantity filtering at all); supplying both with `min > max` or a
negative bound fails validation with a `ValidationError` before querying; and
with both bounds valid the search returns exactly the records passing the
equality filters together with the inclusive range
`min_quantity ≤ quantity ≤ max_quantity`. -/
theorem C7_search_range_semantics (db : DB) (of ot name id : Option String)
    (lo hi : Int) (uid : Option String) :
    (ProductService.search_products db of ot name id (some lo) none uid =
      ProductService.search_products db of ot name id none none uid) ∧
    (ProductService.search_products db of ot name id none (some hi) uid =
      ProductService.search_products db of ot name id none none uid) ∧
    ((lo > hi ∨ lo < 0 ∨ hi < 0) →
      ProductService.search_products db of ot name id (some lo) (some hi) uid =
        .error .validationError) ∧
    (lo ≤ hi → 0 ≤ lo → 0 ≤ hi →
      ∃ l, ProductService.search_products db of ot name id (some lo) (some hi) uid =
          .ok l ∧
        ∀ p, p ∈ l ↔ (p ∈ db.products ∧ (∀ n, name = some n → p.name = n) ∧
          (∀ i, id = some i → p.id = i) ∧ (∀ w, uid = some w → p.unit_id = w) ∧
          lo ≤ p.quantity ∧ p.quantity ≤ hi)) := by
  refine ⟨?_, ?_, ?_, ?_⟩
  · rfl
  · rfl
  · intro h3
    unfold ProductService.search_products
    split
    · rfl
    · rename_i hcond
      exfalso
      simp only [Bool.or_eq_true, decide_eq_true_eq] at hcond
      rcases h3 with h | h | h
      · exact hcond (Or.inl (Or.inl h))
      · exact hcond (Or.inl (Or.inr h))
      · exact hcond (Or.inr h)
  · intro hle hlo hhi
    unfold ProductService.search_products
    split
    · rename_i hcond
      exfalso
      simp only [Bool.or_eq_true, decide_eq_true_eq] at hcond
      rcases hcond with (h | h) | h <;> omega
    · split
      · refine ⟨_, rfl, ?_⟩
        intro p
        rw [mem_search_products, searchQuery_both_iff]
      · refine ⟨_, rfl, ?_⟩
        intro p
        rw [mem_search_products, searchQuery_both_iff]

/-- C7 witness: the range example of the spec — records with quantities 2, 5, 9 and
the range [3, 8]. -/
theorem C7_search_range_semantics_witness :
    ∃ l, ProductService.search_products dbC none none none none (some 3) (some 8)
        none = .ok l ∧
      ∀ p, p ∈ l ↔ (p ∈ dbC.products ∧
        (∀ n, (none : Option String) = some n → p.name = n) ∧
        (∀ i, (none : Option String) = some i → p.id = i) ∧
        (∀ w, (none : Option String) = some w → p.unit_id = w) ∧
        3 ≤ p.quantity ∧ p.quantity ≤ 8) :=
  (C7_search_range_semantics dbC none none none none 3 8 none).2.2.2
    (by decide) (by decide) (by decide)

/-- C9 counterexample: `dbA` already holds a record with id `p1`; the engine
accepts a second single-unit insert with the same id (no uniqueness is
enforced), and a subsequent search by that exact id returns two matches, not
exactly one. -/
theorem C9_duplicate_id_breaks_roundtrip :
    ProductService.insert_product dbA fr (some ("p1")) ("widget") 1 0 1 1 ("general")
      2 3 ("acme") 0 (some ("u1")) =
      (.ok [⟨"p1", "widget", 1, 0, 1, 1, "general", 2, 3, "acme", 0, "u1"⟩],
       ⟨[p1, ⟨"p1", "widget", 1, 0, 1, 1, "general", 2, 3, "acme", 0, "u1"⟩], [u1]⟩) ∧
    ProductService.search_products
      ⟨[p1, ⟨"p1", "widget", 1, 0, 1, 1, "general", 2, 3, "acme", 0, "u1"⟩], [u1]⟩
      none none none (some ("p1")) none none none =
      .ok [p1, ⟨"p1", "widget", 1, 0, 1, 1, "general", 2, 3, "acme", 0, "u1"⟩] ∧
    ([p1, ⟨"p1", "widget", 1, 0, 1, 1, "general", 2, 3, "acme", 0, "u1"⟩] :
      List Product).length ≠ 1 := by
  refine ⟨?_, ?_, by decide⟩
  · norm_num [ProductService.insert_product, ProductService.does_product_fit_in_unit,
      ProductService.insert_product_to_unit, Product.from_dict,
      UnitRepository.get_unit_by_id, ProductRepository.get_quantity_and_volume_by_unit,
      ProductRepository.insert_product, dbA, p1, u1, List.find?]
  · rw [search_products_plain_eq]
    simp [ProductRepository.search_products, ProductRepository.searchQuery,
      ProductRepository.sortBy, p1, List.filter]

/-- C9 (amended): after a single-unit insert accepted by the engine, of a
record whose stored id does not already occur in the catalog, a search by that
exact id returns exactly one match, and every field of the returned record
equals the corresponding inserted value (with the id being the caller id or
the generated fresh UUID). -/
theorem C9_insert_search_roundtrip (db : DB) (fresh : Nat → String)
    (id : Option String) (name : String) (q sq : Int) (w v : ℚ) (c : String)
    (pp sp : ℚ) (m : String) (ug : ℚ) (uid : String) (p : Product) (db2 : DB)
    (hins : ProductService.insert_product db fresh id name q sq w v c pp sp m ug
      (some uid) = (.ok [p], db2))
    (hfresh : ∀ r ∈ db.products, ¬ r.id = p.id) :
    ProductService.search_products db2 none none none (some p.id) none none none =
      .ok [p] ∧
    p.id = id.getD (fresh 0) ∧ p.name = name ∧ p.quantity = q ∧ p.sold_quantity = sq ∧
    p.weight = w ∧ p.volume = v ∧ p.category = c ∧ p.purchase_price = pp ∧
    p.selling_price = sp ∧ p.manufacturer = m ∧ p.unit_gain = ug ∧ p.unit_id = uid := by
  rw [insert_product_some_eq] at hins
  split at hins
  · simp at hins
  · simp at hins
  · rename_i hfit
    rw [does_product_fit_eq] at hfit
    split at hfit
    · cases hfit
    · rename_i U hU
      rw [insert_product_to_unit_some_eq db (fresh 0) id name q sq w v c pp sp m ug uid
        U hU] at hins
      simp only [Prod.mk.injEq, Except.ok.injEq, List.cons.injEq, and_true] at hins
      obtain ⟨hp, hdb2⟩ := hins
      subst hdb2
      obtain rfl : p = ⟨id.getD (fresh 0), name, q, sq, w, v, c, pp, sp, m, ug, uid⟩ :=
        hp.symm
      refine ⟨?_, rfl, rfl, rfl, rfl, rfl, rfl, rfl, rfl, rfl, rfl, rfl, rfl⟩
      rw [search_products_plain_eq]
      show Except.ok (List.filter _ _) = _
      rw [List.filter_append]
      have h1 : db.products.filter (ProductRepository.searchQuery none
          (some (Product.id ⟨id.getD (fresh 0), name, q, sq, w, v, c, pp, sp, m, ug, uid⟩))
          none none none) = [] := by
        rw [List.filter_eq_nil_iff]
        intro r hr
        simp only [ProductRepository.searchQuery, Bool.true_and, Bool.and_true,
          beq_iff_eq, decide_eq_true_eq]
        exact hfresh r hr
      have h2 : List.filter (ProductRepository.searchQuery none
          (some (Product.id ⟨id.getD (fresh 0), name, q, sq, w, v, c, pp, sp, m, ug, uid⟩))
          none none none)
          [⟨id.getD (fresh 0), name, q, sq, w, v, c, pp, sp, m, ug, uid⟩] =
          [⟨id.getD (fresh 0), name, q, sq, w, v, c, pp, sp, m, ug, uid⟩] := by
        simp [ProductRepository.searchQuery]
      rw [h1, h2]
      rfl

/-- C9 witness: inserting a record with the fresh id `p7` into `dbA` and
searching it back. -/
theorem C9_insert_search_roundtrip_witness :
    ProductService.search_products
      ⟨[p1, ⟨"p7", "gimlet", 1, 0, 1, 1, "tools", 2, 3, "acme", 0, "u1"⟩], [u1]⟩
      none none none (some ("p7")) none none none =
      .ok [⟨"p7", "gimlet", 1, 0, 1, 1, "tools", 2, 3, "acme", 0, "u1"⟩] :=
  (C9_insert_search_roundtrip dbA fr (some ("p7")) ("gimlet") 1 0 1 1 ("tools") 2 3
    ("acme") 0 ("u1") ⟨"p7", "gimlet", 1, 0, 1, 1, "tools", 2, 3, "acme", 0, "u1"⟩
    ⟨[p1, ⟨"p7", "gimlet", 1, 0, 1, 1, "tools", 2, 3, "acme", 0, "u1"⟩], [u1]⟩
    (by norm_num [ProductService.insert_product, ProductService.does_product_fit_in_unit,
      ProductService.insert_product_to_unit, Product.from_dict,
      UnitRepository.get_unit_by_id, ProductRepository.get_quantity_and_volume_by_unit,
      ProductRepository.insert_product, dbA, p1, u1, List.find?])
    (by decide)).1

/-- C10: every creation path stores a non-null id: `Product.from_dict` (the
single constructor used by both insert paths) stores the caller id when
given and the generated fresh UUID when the caller passes `None`; any other
required StockRecord field that is missing or `None` makes `from_dict` fail
with the validation error, so nothing is built or written; `Unit.__init__`
likewise stores the given id or the fresh UUID; and consequently every record
stored by an insert carries either a pre-existing id or the caller-given or generated
id — never a null one. -/
theorem C10_creation_id_never_null :
    (∀ fresh d p, Product.from_dict fresh d = .ok p → p.id = d.id.getD fresh) ∧
    (∀ fresh d, (d.name = none ∨ d.quantity = none ∨ d.sold_quantity = none ∨
        d.weight = none ∨ d.volume = none ∨ d.category = none ∨
        d.purchase_price = none ∨ d.selling_price = none ∨ d.manufacturer = none ∨
        d.unit_gain = none ∨ d.unit_id = none) →
      Product.from_dict fresh d = .error .validationError) ∧
    (∀ id name volume fresh, (Unit.init id name volume fresh).id = id.getD fresh) ∧
    (∀ db fresh id name q sq w v c pp sp m ug uid res db2,
      ProductService.insert_product db fresh id name q sq w v c pp sp m ug uid =
        (res, db2) →
      ∀ r ∈ db2.products, r ∈ db.products ∨ ∃ i, r.id = id.getD (fresh i)) := by
  refine ⟨?_, ?_, ?_, ?_⟩
  · intro fresh d p h
    exact (from_dict_ok_spec h).1
  · intro fresh d h2
    unfold Product.from_dict
    split
    · exfalso
      rcases h2 with h|h|h|h|h|h|h|h|h|h|h <;> simp_all
    · rfl
  · intro id name volume fresh
    rfl
  · intro db fresh id name q sq w v c pp sp m ug uid res db2 h r hr
    cases uid with
    | some u =>
      rw [insert_product_some_eq] at h
      split at h
      · injection h with h1 h2
        subst h2
        exact Or.inl hr
      · injection h with h1 h2
        subst h2
        exact Or.inl hr
      · rename_i hfit
        rw [does_product_fit_eq] at hfit
        split at hfit
        · cases hfit
        · rename_i U hU
          rw [insert_product_to_unit_some_eq db (fresh 0) id name q sq w v c pp sp m ug
            u U hU] at h
          injection h with h1 h2
          subst h2
          have hr2 : r ∈ db.products ++
              [(⟨id.getD (fresh 0), name, q, sq, w, v, c, pp, sp, m, ug, u⟩ : Product)] :=
            hr
          rcases List.mem_append.mp hr2 with hr3 | hr3
          · exact Or.inl hr3
          · right
            refine ⟨0, ?_⟩
            rw [List.mem_singleton.mp hr3]
    | none =>
      rw [insert_product_none_eq] at h
      unfold ProductService.insert_product_to_all_units at h
      split at h
      · injection h with h1 h2
        subst h2
        exact Or.inl hr
      · rename_i ps0 hbuild
        injection h with h1 h2
        subst h2
        have hr2 : r ∈ db.products ++ ps0 := hr
        rcases List.mem_append.mp hr2 with hr3 | hr3
        · exact Or.inl hr3
        · obtain ⟨j, u2, -, hfd⟩ := build_products_mem hbuild r hr3
          right
          exact ⟨j, by simpa using (from_dict_ok_spec hfd).1⟩

/-- C10 witness: a missing `name` is rejected; a `None` unit id becomes the
fresh UUID. -/
theorem C10_creation_id_never_null_witness :
    Product.from_dict ("fresh-id") ⟨some ("p1"), none, some 1, some 0, some 1, some 1,
      some ("c"), some 1, some 2, some ("m"), some 0, some ("u1")⟩ =
      .error .validationError ∧
    (Unit.init none ("spare") 10 ("fresh-id")).id = ("fresh-id" : String) :=
  ⟨C10_creation_id_never_null.2.1 ("fresh-id") _ (Or.inl rfl),
   C10_creation_id_never_null.2.2.1 none ("spare") 10 ("fresh-id")⟩

end Warehouse
